import Mathlib

/-!
Shallow embedding of `transaction_builder.go` (package iotago): the
`TransactionBuilder` that accumulates transaction essence data (inputs,
outputs, optional indexation payload) and assembles the per-input unlock
blocks on `Build`, deduplicating signatures per owning-address identity.

External collaborators (the canonical signing-message computation, the
address signer, the encode-and-validate serializer and the node query) are
passed in as explicit function parameters; `Build` additionally returns a
ghost record counting how often each external capability was invoked, so
that short-circuiting claims are checkable.  Go maps are modelled as
association lists where a new binding is consed in front (so a later
binding for the same key shadows the earlier one, matching map assignment),
and the `uint16(pos)` conversion on reference unlock blocks is modelled as
`pos % 65536`.  A Go panic (the unconditional downcast in
`AddInputsViaNodeQuery`, or calling `String()` through a nil interface) is
modelled as a distinguished error outcome.
-/

namespace IotaGo

/-- Identity of the output an input spends: (transaction id, output index).
Models `OutputID` as used for the `inputToAddr` map key. -/
abbrev OutputID := Nat × Nat

/-- Models `UTXOInput`: the reference to a previously created output. -/
structure UTXOInput where
  TransactionID : Nat
  TransactionOutputIndex : Nat
deriving DecidableEq

/-- Models `(*UTXOInput).ID()`. -/
def UTXOInput.ID (u : UTXOInput) : OutputID :=
  (u.TransactionID, u.TransactionOutputIndex)

/-- Models the `Address` interface: one supported concrete kind
(`Ed25519Address`) and a stand-in for any other concrete kind (the Go code
branches on the dynamic type; everything except `*Ed25519Address` takes the
default branch). -/
inductive Address where
  | ed25519 (key : String)
  | otherKind (typeName : String) (key : String)
deriving DecidableEq

/-- Models `addr.(fmt.Stringer).String()`: the stable string identity used
as the signature-deduplication key. -/
def addrString : Address → String
  | .ed25519 key => "ed25519:" ++ key
  | .otherKind typeName key => typeName ++ ":" ++ key

/-- Outputs are opaque to the builder beyond being storable. -/
structure Output where
  amount : Nat
deriving DecidableEq

/-- Models the `Indexation` payload, opaque to the builder. -/
structure Indexation where
  index : String
deriving DecidableEq

/-- Models `TransactionEssence`: ordered inputs, ordered outputs, optional
inner payload. -/
structure TransactionEssence where
  Inputs : List UTXOInput
  Outputs : List Output
  Payload : Option Indexation
deriving DecidableEq

/-- Errors surfaced by the builder.  `missingDeSeriParas` / `missingSigner`
model the two `ErrTransactionBuilder` wraps produced by `Build`'s
precondition switch; `unsupportedAddress` models the
`ErrTransactionBuilderUnsupportedAddress` wrap; `goPanic` models a Go
runtime panic; `external` models any error value produced by an external
collaborator (node query, signing-message computation, signer,
serializer). -/
inductive BuilderErr where
  | unsupportedAddress (gotType : String)
  | missingDeSeriParas
  | missingSigner
  | goPanic (msg : String)
  | external (msg : String)
deriving DecidableEq

/-- Opaque signature value produced by the signer. -/
abbrev Signature := Nat

/-- Models `UnlockBlock`: either a real signature or a back-reference (a
`uint16` position) to an earlier signature block. -/
inductive UnlockBlock where
  | SignatureUnlockBlock (signature : Signature)
  | ReferenceUnlockBlock (Reference : Nat)
deriving DecidableEq

/-- Models `Transaction`: essence plus unlock blocks. -/
structure Transaction where
  Essence : TransactionEssence
  UnlockBlocks : List UnlockBlock
deriving DecidableEq

/-- Association-list model of the Go map `map[OutputID]Address`; a fresh
binding is consed in front, so lookup (first match) sees the most recent
binding, exactly like Go map assignment. -/
abbrev AddrMap := List (OutputID × Address)

/-- Lookup in the `inputToAddr` map; `none` models the Go zero value (a nil
`Address` interface) for a missing key. -/
def mapLookup : AddrMap → OutputID → Option Address
  | [], _ => none
  | (k, v) :: rest, key => if k = key then some v else mapLookup rest key

/-- Lookup in the `sigBlockPos` map (`map[string]int`), `none` modelling
`alreadySigned = false`. -/
def strLookup : List (String × Nat) → String → Option Nat
  | [], _ => none
  | (s, p) :: rest, key => if s = key then some p else strLookup rest key

/-- Models `TransactionBuilder`: sticky error slot, essence under
construction, and the input-identity-to-owning-address map. -/
structure TransactionBuilder where
  occurredBuildErr : Option BuilderErr
  essence : TransactionEssence
  inputToAddr : AddrMap
deriving DecidableEq

/-- Models `NewTransactionBuilder`. -/
def NewTransactionBuilder : TransactionBuilder :=
  { occurredBuildErr := none
    essence := { Inputs := [], Outputs := [], Payload := none }
    inputToAddr := [] }

/-- Models `ToBeSignedUTXOInput`: an input together with the address
entitled to spend it. -/
structure ToBeSignedUTXOInput where
  Address : Address
  Input : UTXOInput
deriving DecidableEq

/-- Models `(*TransactionBuilder).AddInput`: records the owning address
under the input's identity and appends the input to the essence. -/
def TransactionBuilder.AddInput (b : TransactionBuilder)
    (input : ToBeSignedUTXOInput) : TransactionBuilder :=
  { b with
    inputToAddr := (input.Input.ID, input.Address) :: b.inputToAddr
    essence := { b.essence with Inputs := b.essence.Inputs ++ [input.Input] } }

/-- Models `(*TransactionBuilder).AddOutput`. -/
def TransactionBuilder.AddOutput (b : TransactionBuilder)
    (output : Output) : TransactionBuilder :=
  { b with essence := { b.essence with Outputs := b.essence.Outputs ++ [output] } }

/-- Models `(*TransactionBuilder).AddIndexationPayload`. -/
def TransactionBuilder.AddIndexationPayload (b : TransactionBuilder)
    (payload : Indexation) : TransactionBuilder :=
  { b with essence := { b.essence with Payload := some payload } }

/-- Models `TransactionBuilderInputFilter`. -/
abbrev TransactionBuilderInputFilter := UTXOInput → Output → Bool

/-- Models the node-query capability
`NodeHTTPAPIClient.OutputsByEd25519Address` (with the context and the
`includeSpent = false` flag folded into the capability): given the Ed25519
address key it yields the unspent (input, output) pairs, in the order the
builder drains them, or an error. -/
abbrev NodeQuery := String → Except BuilderErr (List (UTXOInput × Output))

/-- Models `(*TransactionBuilder).AddInputsViaNodeQuery`.  The Go method
first switches on the address's dynamic type, recording an
`ErrTransactionBuilderUnsupportedAddress` on the sticky slot for anything
but `*Ed25519Address`; it then unconditionally downcasts the address to
`*Ed25519Address` as the query argument, which panics for every other
kind — modelled by the `Except.error` outcome carrying the panic message
(the mutated builder is unreachable after a panic, so it is not part of
that outcome).  On query failure the error is assigned to the sticky slot
(overwriting it) and the builder is returned unchanged otherwise; on
success each pair passing the filter is added via `AddInput`. -/
def TransactionBuilder.AddInputsViaNodeQuery (b : TransactionBuilder)
    (addr : Address) (outputsByEd25519Address : NodeQuery)
    (filter : Option TransactionBuilderInputFilter) :
    Except String TransactionBuilder :=
  let b1 : TransactionBuilder :=
    match addr with
    | .ed25519 _ => b
    | .otherKind typeName _ =>
        { b with occurredBuildErr := some (.unsupportedAddress typeName) }
  match addr with
  | .ed25519 key =>
    match outputsByEd25519Address key with
    | .error e => .ok { b1 with occurredBuildErr := some e }
    | .ok unspentOutputs =>
      .ok (unspentOutputs.foldl
        (fun acc p =>
          match filter with
          | some f =>
            if f p.1 p.2 then acc.AddInput { Address := addr, Input := p.1 } else acc
          | none => acc.AddInput { Address := addr, Input := p.1 }) b1)
  | .otherKind _ _ =>
    .error "interface conversion: iotago.Address is not Ed25519Address"

/-- The signer capability `AddressSigner.Sign`: address and signing-message
bytes to a signature or an error. -/
abbrev AddressSigner := Address → List Nat → Except BuilderErr Signature

/-- Encoding parameters (`DeSerializationParameters`), opaque to the
builder: `Build` only checks their presence and forwards them. -/
structure DeSerializationParameters where
  token : Nat
deriving DecidableEq

/-- Ghost record of how often `Build` invoked each external capability:
the signing-message computation, the signer, and the serializer. -/
structure BuildCalls where
  signingMessageCalls : Nat
  signerCalls : Nat
  serializeCalls : Nat
deriving DecidableEq

/-- Models the per-input loop of `Build` (the unlock assembler): walk the
inputs with their 0-based position `i`, look up the owning address recorded
for the input (a missing entry is the nil interface, whose `String()` call
panics), and either reference the position already recorded for that
address string (as `uint16`, hence `% 65536`) or sign afresh and record the
current position.  The second component counts signer invocations. -/
def buildLoop (signer : AddressSigner) (msg : List Nat) (inputToAddr : AddrMap) :
    List UTXOInput → Nat → List (String × Nat) → List UnlockBlock →
    Except BuilderErr (List UnlockBlock) × Nat
  | [], _, _, unlockBlocks => (.ok unlockBlocks, 0)
  | input :: rest, i, sigBlockPos, unlockBlocks =>
    match mapLookup inputToAddr input.ID with
    | none => (.error (.goPanic "invalid memory address or nil pointer dereference"), 0)
    | some addr =>
      match strLookup sigBlockPos (addrString addr) with
      | some pos =>
        buildLoop signer msg inputToAddr rest (i + 1) sigBlockPos
          (unlockBlocks ++ [.ReferenceUnlockBlock (pos % 65536)])
      | none =>
        match signer addr msg with
        | .error e => (.error e, 1)
        | .ok sig =>
          match buildLoop signer msg inputToAddr rest (i + 1)
              ((addrString addr, i) :: sigBlockPos)
              (unlockBlocks ++ [.SignatureUnlockBlock sig]) with
          | (res, n) => (res, n + 1)

/-- Models `(*TransactionBuilder).Build`.  The external signing-message
computation (`essence.SigningMessage()`) and the validating serializer
(`Transaction.Serialize` with `DeSeriModePerformValidation`) are passed as
capability parameters, since they live outside this file of the source;
the second component of the result counts the calls made to each. -/
def Build (b : TransactionBuilder) (deSeriParas : Option DeSerializationParameters)
    (signer : Option AddressSigner)
    (signingMessage : TransactionEssence → Except BuilderErr (List Nat))
    (serialize : Transaction → DeSerializationParameters → Except BuilderErr Unit) :
    Except BuilderErr Transaction × BuildCalls :=
  match b.occurredBuildErr with
  | some e => (.error e, ⟨0, 0, 0⟩)
  | none =>
    match deSeriParas with
    | none => (.error .missingDeSeriParas, ⟨0, 0, 0⟩)
    | some paras =>
      match signer with
      | none => (.error .missingSigner, ⟨0, 0, 0⟩)
      | some signerFn =>
        match signingMessage b.essence with
        | .error e => (.error e, ⟨1, 0, 0⟩)
        | .ok txEssenceData =>
          match buildLoop signerFn txEssenceData b.inputToAddr b.essence.Inputs 0 [] [] with
          | (.error e, n) => (.error e, ⟨1, n, 0⟩)
          | (.ok unlockBlocks, n) =>
            match serialize ⟨b.essence, unlockBlocks⟩ paras with
            | .error e => (.error e, ⟨1, n, 1⟩)
            | .ok _ => (.ok ⟨b.essence, unlockBlocks⟩, ⟨1, n, 1⟩)

deriving instance DecidableEq for Except

/-- Builder obtained by adding the given inputs, in order, to a fresh
builder — the "input sequence accumulated via AddInput" of the claims. -/
def buildFromInputs (tbs : List ToBeSignedUTXOInput) : TransactionBuilder :=
  tbs.foldl (fun b t => b.AddInput t) NewTransactionBuilder

/-- One accumulation call on the builder (for claims quantifying over all
sequences of accumulation calls). -/
inductive BuilderOp where
  | addInput (t : ToBeSignedUTXOInput)
  | addOutput (o : Output)
  | addIndexationPayload (p : Indexation)
deriving DecidableEq

/-- Applies one accumulation call. -/
def applyOp (b : TransactionBuilder) : BuilderOp → TransactionBuilder
  | .addInput t => b.AddInput t
  | .addOutput o => b.AddOutput o
  | .addIndexationPayload p => b.AddIndexationPayload p

/-- Applies a sequence of accumulation calls, oldest first. -/
def applyOps (b : TransactionBuilder) (ops : List BuilderOp) : TransactionBuilder :=
  ops.foldl applyOp b

/-- The inputs added by a sequence of accumulation calls, in call order. -/
def opsInputs (ops : List BuilderOp) : List UTXOInput :=
  ops.filterMap fun
    | .addInput t => some t.Input
    | _ => none

/-- The outputs added by a sequence of accumulation calls, in call order. -/
def opsOutputs (ops : List BuilderOp) : List Output :=
  ops.filterMap fun
    | .addOutput o => some o
    | _ => none

/-- Owning-address identity string of an input under the given
input-to-address map (the default is irrelevant: it is only consulted for
inputs whose identity is absent from the map, in which case `Build` would
panic rather than reach a comparison). -/
def inpStr (m : AddrMap) (inp : UTXOInput) : String :=
  addrString ((mapLookup m inp.ID).getD (.ed25519 ""))

/-- Owning-address identity string of the input at position `j`. -/
def sAt (m : AddrMap) (ins : List UTXOInput) (j : Nat) : String :=
  inpStr m (ins.getD j ⟨0, 0⟩)

/-- Position of the first input whose owning-address identity is `s`
(length of the list if there is none). -/
def firstIdxAux (m : AddrMap) (s : String) : List UTXOInput → Nat
  | [] => 0
  | inp :: rest => if inpStr m inp = s then 0 else firstIdxAux m s rest + 1

/-- Smallest index among the inputs sharing the owning-address identity of
the input at position `j`. -/
def firstIdx (m : AddrMap) (ins : List UTXOInput) (j : Nat) : Nat :=
  firstIdxAux m (sAt m ins j) ins

/-- What the unlock block at position `j` must look like, as assembled by
the code: a signature block where `j` is the first position of its
owning-address identity, otherwise a reference block carrying the first
position reduced to `uint16`. -/
def C1BlockSpec (m : AddrMap) (ins : List UTXOInput) (blocks : List UnlockBlock)
    (j : Nat) : Prop :=
  (firstIdx m ins j = j → ∃ s, blocks[j]? = some (.SignatureUnlockBlock s)) ∧
  (firstIdx m ins j ≠ j →
    blocks[j]? = some (.ReferenceUnlockBlock (firstIdx m ins j % 65536)))

/-- The reference-block part of claim C1, stated in the spec's words: in a
successful `Build`, every non-first position carries a
`ReferenceUnlockBlock` whose reference is (exactly) the smallest index
among the inputs sharing its owning-address identity. -/
def C1RefClaim (b : TransactionBuilder) (paras : DeSerializationParameters)
    (signer : AddressSigner)
    (signingMessage : TransactionEssence → Except BuilderErr (List Nat))
    (serialize : Transaction → DeSerializationParameters → Except BuilderErr Unit) : Prop :=
  ∀ tx c, Build b (some paras) (some signer) signingMessage serialize = (.ok tx, c) →
    ∀ j, j < b.essence.Inputs.length →
      firstIdx b.inputToAddr b.essence.Inputs j ≠ j →
      tx.UnlockBlocks[j]? =
        some (.ReferenceUnlockBlock (firstIdx b.inputToAddr b.essence.Inputs j))

/-- A signer that always succeeds with signature 7. -/
def okSigner : AddressSigner := fun _ _ => .ok 7

/-- A signer that always fails. -/
def failSigner : AddressSigner := fun _ _ => .error (.external "keyfail")

/-- A signing-message capability that always succeeds. -/
def okMs : TransactionEssence → Except BuilderErr (List Nat) := fun _ => .ok []

/-- A serializer capability that accepts every transaction. -/
def okSz : Transaction → DeSerializationParameters → Except BuilderErr Unit :=
  fun _ _ => .ok ()

/-- Extracts the builder from a non-panicking `AddInputsViaNodeQuery`
call. -/
def getOkBuilder : Except String TransactionBuilder → TransactionBuilder
  | .ok b => b
  | .error _ => NewTransactionBuilder

/-- A node query that fails with the given message. -/
def failingQuery (msg : String) : NodeQuery := fun _ => .error (.external msg)

/-- Builder carrying a sticky error, obtained through the public API by a
failed node query. -/
def stickyB : TransactionBuilder :=
  getOkBuilder
    (NewTransactionBuilder.AddInputsViaNodeQuery (.ed25519 "k") (failingQuery "net1") none)

/-- Concrete three-input accumulation (addresses X, Y, X) used to witness
the unlock-block structure theorem. -/
def c1wTbs : List ToBeSignedUTXOInput :=
  [⟨.ed25519 "x", ⟨0, 0⟩⟩, ⟨.ed25519 "y", ⟨1, 0⟩⟩, ⟨.ed25519 "x", ⟨2, 0⟩⟩]

/-- The transaction `Build` produces for `c1wTbs` under the trivial
capabilities: signatures at the first appearances (positions 0 and 1) and
a reference to 0 at position 2. -/
def c1wTx : Transaction :=
  ⟨⟨[⟨0, 0⟩, ⟨1, 0⟩, ⟨2, 0⟩], [], none⟩,
    [.SignatureUnlockBlock 7, .SignatureUnlockBlock 7, .ReferenceUnlockBlock 0]⟩

/-- Address X of the 65536 padding inputs of the C1 counterexample. -/
def cexX : Address := .ed25519 "x"

/-- Address A whose first signature lands at position 65536. -/
def cexA : Address := .ed25519 "a"

/-- The padding input owned by X. -/
def cexInpX : UTXOInput := ⟨0, 0⟩

/-- The input owned by A. -/
def cexInpA : UTXOInput := ⟨1, 0⟩

/-- Input sequence of the C1 counterexample: 65536 inputs owned by X, then
two inputs owned by A, so that the second A input must reference position
65536 — which the `uint16` conversion turns into 0. -/
def cexTbs : List ToBeSignedUTXOInput :=
  List.replicate 65536 ⟨cexX, cexInpX⟩ ++ [⟨cexA, cexInpA⟩, ⟨cexA, cexInpA⟩]

/-- The C1 counterexample builder. -/
def cexB : TransactionBuilder := buildFromInputs cexTbs

/-- Unlock blocks `Build` assembles for the C1 counterexample: a signature
for X, 65535 references to it, a signature for A at position 65536, and a
reference truncated to 0 at position 65537. -/
def cexBlocks : List UnlockBlock :=
  .SignatureUnlockBlock 7 ::
    (List.replicate 65535 (.ReferenceUnlockBlock 0) ++
      [.SignatureUnlockBlock 7, .ReferenceUnlockBlock 0])

theorem buildLoop_ok_length (signer : AddressSigner) (msg : List Nat) (m : AddrMap) :
    ∀ (ins : List UTXOInput) (i : Nat) (sp : List (String × Nat))
      (blocks final : List UnlockBlock) (n : Nat),
      buildLoop signer msg m ins i sp blocks = (.ok final, n) →
      final.length = blocks.length + ins.length := by
  intro ins
  induction ins with
  | nil =>
    intro i sp blocks final n h
    simp only [buildLoop, Prod.mk.injEq] at h
    obtain ⟨h1, _⟩ := h
    cases h1
    simp
  | cons input rest ih =>
    intro i sp blocks final n h
    rw [buildLoop] at h
    cases hlk : mapLookup m input.ID with
    | none => simp only [hlk] at h; simp at h
    | some addr =>
      simp only [hlk] at h
      cases hsl : strLookup sp (addrString addr) with
      | some pos =>
        simp only [hsl] at h
        have := ih (i + 1) sp (blocks ++ [.ReferenceUnlockBlock (pos % 65536)]) final n h
        simp only [List.length_append, List.length_cons, List.length_nil] at this ⊢
        omega
      | none =>
        simp only [hsl] at h
        cases hsg : signer addr msg with
        | error e => simp only [hsg] at h; simp at h
        | ok sig =>
          simp only [hsg] at h
          rcases hrec : buildLoop signer msg m rest (i + 1) ((addrString addr, i) :: sp)
            (blocks ++ [.SignatureUnlockBlock sig]) with ⟨res, k⟩
          rw [hrec] at h
          simp only [Prod.mk.injEq] at h
          obtain ⟨h1, _⟩ := h
          cases h1
          have := ih _ _ _ final k hrec
          simp only [List.length_append, List.length_cons, List.length_nil] at this ⊢
          omega

theorem buildLoop_error_from_signer (signer : AddressSigner) (msg : List Nat) (m : AddrMap) :
    ∀ (ins : List UTXOInput) (i : Nat) (sp : List (String × Nat))
      (blocks : List UnlockBlock) (e : BuilderErr) (n : Nat),
      (∀ inp ∈ ins, (mapLookup m inp.ID).isSome = true) →
      buildLoop signer msg m ins i sp blocks = (.error e, n) →
      ∃ a, signer a msg = .error e := by
  intro ins
  induction ins with
  | nil =>
    intro i sp blocks e n _ h
    simp [buildLoop] at h
  | cons input rest ih =>
    intro i sp blocks e n hmem h
    rw [buildLoop] at h
    cases hlk : mapLookup m input.ID with
    | none =>
      have := hmem input (by simp)
      rw [hlk] at this
      simp at this
    | some addr =>
      simp only [hlk] at h
      cases hsl : strLookup sp (addrString addr) with
      | some pos =>
        simp only [hsl] at h
        exact ih _ _ _ _ _ (fun inp hi => hmem inp (by simp [hi])) h
      | none =>
        simp only [hsl] at h
        cases hsg : signer addr msg with
        | error e2 =>
          simp only [hsg] at h
          simp only [Prod.mk.injEq] at h
          obtain ⟨h1, _⟩ := h
          cases h1
          exact ⟨_, hsg⟩
        | ok sig =>
          simp only [hsg] at h
          rcases hrec : buildLoop signer msg m rest (i + 1) ((addrString addr, i) :: sp)
            (blocks ++ [.SignatureUnlockBlock sig]) with ⟨res, k⟩
          rw [hrec] at h
          simp only [Prod.mk.injEq] at h
          obtain ⟨h1, _⟩ := h
          cases h1
          exact ih _ _ _ _ _ (fun inp hi => hmem inp (by simp [hi])) hrec

theorem Build_ok_shape (b : TransactionBuilder) (ds : Option DeSerializationParameters)
    (s : Option AddressSigner) (ms : TransactionEssence → Except BuilderErr (List Nat))
    (sz : Transaction → DeSerializationParameters → Except BuilderErr Unit)
    (tx : Transaction) (c : BuildCalls)
    (h : Build b ds s ms sz = (.ok tx, c)) :
    tx.Essence = b.essence ∧ b.occurredBuildErr = none ∧
    ∃ signerFn msg n, s = some signerFn ∧ ms b.essence = .ok msg ∧
      buildLoop signerFn msg b.inputToAddr b.essence.Inputs 0 [] [] = (.ok tx.UnlockBlocks, n) := by
  unfold Build at h
  split at h
  · simp at h
  · next hErr =>
    split at h
    · simp at h
    · split at h
      · simp at h
      · next signerFn =>
        split at h
        · simp at h
        · next msg hMsg =>
          split at h
          · simp at h
          · next u n hLoop =>
            split at h
            · simp at h
            · simp only [Prod.mk.injEq, Except.ok.injEq] at h
              obtain ⟨h1, _⟩ := h
              cases h1
              exact ⟨rfl, hErr, signerFn, msg, n, rfl, hMsg, hLoop⟩

theorem foldl_AddInput_spec :
    ∀ (tbs : List ToBeSignedUTXOInput) (b : TransactionBuilder),
      (tbs.foldl (fun acc t => acc.AddInput t) b).occurredBuildErr = b.occurredBuildErr ∧
      (tbs.foldl (fun acc t => acc.AddInput t) b).essence.Inputs
        = b.essence.Inputs ++ tbs.map (fun t => t.Input) ∧
      (tbs.foldl (fun acc t => acc.AddInput t) b).essence.Outputs = b.essence.Outputs ∧
      (tbs.foldl (fun acc t => acc.AddInput t) b).essence.Payload = b.essence.Payload ∧
      (tbs.foldl (fun acc t => acc.AddInput t) b).inputToAddr
        = (tbs.map (fun t => (t.Input.ID, t.Address))).reverse ++ b.inputToAddr := by
  intro tbs
  induction tbs with
  | nil => intro b; simp
  | cons t rest ih =>
    intro b
    obtain ⟨ih1, ih2, ih3, ih4, ih5⟩ := ih (b.AddInput t)
    simp only [List.foldl_cons, List.map_cons, List.reverse_cons]
    refine ⟨?_, ?_, ?_, ?_, ?_⟩
    · rw [ih1]; simp [TransactionBuilder.AddInput]
    · rw [ih2]; simp [TransactionBuilder.AddInput]
    · rw [ih3]; simp [TransactionBuilder.AddInput]
    · rw [ih4]; simp [TransactionBuilder.AddInput]
    · rw [ih5]; simp [TransactionBuilder.AddInput]

/-- Claim C4: `Build` checks its preconditions in the fixed order sticky
error, absent encoding parameters, absent signer; the first failing one's
error is returned with zero calls to the signing-message function, the
signer and the serializer. -/
theorem C4_precondition_order (b : TransactionBuilder)
    (ms : TransactionEssence → Except BuilderErr (List Nat))
    (sz : Transaction → DeSerializationParameters → Except BuilderErr Unit) :
    (∀ e ds s, b.occurredBuildErr = some e →
      Build b ds s ms sz = (.error e, ⟨0, 0, 0⟩)) ∧
    (∀ s, b.occurredBuildErr = none →
      Build b none s ms sz = (.error .missingDeSeriParas, ⟨0, 0, 0⟩)) ∧
    (∀ p, b.occurredBuildErr = none →
      Build b (some p) none ms sz = (.error .missingSigner, ⟨0, 0, 0⟩)) := by
  refine ⟨?_, ?_, ?_⟩
  · intro e ds s h; simp [Build, h]
  · intro s h; simp [Build, h]
  · intro p h; simp [Build, h]

/-- Witness for C4 at concrete builders. -/
theorem C4_precondition_order_witness :
    Build stickyB none none okMs okSz = (.error (.external "net1"), ⟨0, 0, 0⟩) ∧
    Build NewTransactionBuilder none (some okSigner) okMs okSz =
      (.error .missingDeSeriParas, ⟨0, 0, 0⟩) ∧
    Build NewTransactionBuilder (some ⟨0⟩) none okMs okSz =
      (.error .missingSigner, ⟨0, 0, 0⟩) :=
  ⟨(C4_precondition_order stickyB okMs okSz).1 (.external "net1") none none (by decide),
   (C4_precondition_order NewTransactionBuilder okMs okSz).2.1 (some okSigner) rfl,
   (C4_precondition_order NewTransactionBuilder okMs okSz).2.2 ⟨0⟩ rfl⟩

/-- Claim C5: for every address whose concrete kind is not
`Ed25519Address`, `AddInputsViaNodeQuery` crashes (the unconditional
downcast panics) instead of returning the builder. -/
theorem C5_nonEd25519_query_panics (b : TransactionBuilder) (typeName key : String)
    (q : NodeQuery) (f : Option TransactionBuilderInputFilter) :
    b.AddInputsViaNodeQuery (.otherKind typeName key) q f =
      .error "interface conversion: iotago.Address is not Ed25519Address" := rfl

/-- Claim C7: when the node query fails, the error lands in the sticky
slot and the accumulator (essence and input-to-address map) is returned
completely unchanged. -/
theorem C7_query_failure_all_or_nothing (b : TransactionBuilder) (key : String)
    (q : NodeQuery) (f : Option TransactionBuilderInputFilter) (e : BuilderErr)
    (h : q key = .error e) :
    b.AddInputsViaNodeQuery (.ed25519 key) q f =
      .ok { occurredBuildErr := some e, essence := b.essence, inputToAddr := b.inputToAddr } := by
  simp [TransactionBuilder.AddInputsViaNodeQuery, h]

/-- Witness for C7: a concrete failed query. -/
theorem C7_query_failure_witness :
    NewTransactionBuilder.AddInputsViaNodeQuery (.ed25519 "k") (failingQuery "boom") none =
      .ok { occurredBuildErr := some (.external "boom"),
            essence := { Inputs := [], Outputs := [], Payload := none },
            inputToAddr := [] } :=
  C7_query_failure_all_or_nothing NewTransactionBuilder "k" (failingQuery "boom") none
    (.external "boom") rfl

/-- Claim C9: with no sticky error, an empty input sequence, parameters
and signer supplied (and well-behaved external encoding capabilities),
`Build` succeeds with an empty unlock-block sequence and zero signer
calls. -/
theorem C9_empty_inputs (b : TransactionBuilder) (paras : DeSerializationParameters)
    (signerFn : AddressSigner) (ms : TransactionEssence → Except BuilderErr (List Nat))
    (sz : Transaction → DeSerializationParameters → Except BuilderErr Unit)
    (msg : List Nat)
    (h1 : b.occurredBuildErr = none) (h2 : b.essence.Inputs = [])
    (h3 : ms b.essence = .ok msg)
    (h4 : sz ⟨b.essence, []⟩ paras = .ok ()) :
    Build b (some paras) (some signerFn) ms sz = (.ok ⟨b.essence, []⟩, ⟨1, 0, 1⟩) := by
  simp [Build, h1, h2, h3, h4, buildLoop]

/-- Witness for C9: the fresh builder. -/
theorem C9_empty_inputs_witness :
    Build NewTransactionBuilder (some ⟨0⟩) (some okSigner) okMs okSz =
      (.ok ⟨{ Inputs := [], Outputs := [], Payload := none }, []⟩, ⟨1, 0, 1⟩) :=
  C9_empty_inputs NewTransactionBuilder ⟨0⟩ okSigner okMs okSz [] rfl rfl rfl rfl

/-- Claim C2: whenever `Build` returns a transaction, it has exactly one
unlock block per input of its essence. -/
theorem C2_unlock_block_count (b : TransactionBuilder)
    (ds : Option DeSerializationParameters) (s : Option AddressSigner)
    (ms : TransactionEssence → Except BuilderErr (List Nat))
    (sz : Transaction → DeSerializationParameters → Except BuilderErr Unit)
    (tx : Transaction) (c : BuildCalls)
    (h : Build b ds s ms sz = (.ok tx, c)) :
    tx.UnlockBlocks.length = tx.Essence.Inputs.length := by
  obtain ⟨hE, -, signerFn, msg, n, -, -, hLoop⟩ := Build_ok_shape b ds s ms sz tx c h
  have := buildLoop_ok_length signerFn msg b.inputToAddr _ 0 [] [] tx.UnlockBlocks n hLoop
  rw [hE]
  simpa using this

/-- Witness for C2 on a concrete two-input build. -/
theorem C2_unlock_block_count_witness :
    (Transaction.mk ⟨[⟨0, 0⟩, ⟨1, 0⟩], [], none⟩
        [.SignatureUnlockBlock 7, .SignatureUnlockBlock 7]).UnlockBlocks.length =
      (Transaction.mk ⟨[⟨0, 0⟩, ⟨1, 0⟩], [], none⟩
        [.SignatureUnlockBlock 7, .SignatureUnlockBlock 7]).Essence.Inputs.length :=
  C2_unlock_block_count
    (buildFromInputs [⟨.ed25519 "x", ⟨0, 0⟩⟩, ⟨.ed25519 "y", ⟨1, 0⟩⟩])
    (some ⟨0⟩) (some okSigner) okMs okSz _ ⟨1, 2, 1⟩ (by decide)

/-- Counterexample to claim C3 as stated: after a sticky error has been
recorded, `AddInput` is not a no-op (it still appends to the essence), and
a second failed query overwrites the sticky error, so the first recorded
error is not the one `Build` returns. -/
theorem C3_counterexample :
    stickyB.occurredBuildErr = some (.external "net1") ∧
    (stickyB.AddInput ⟨.ed25519 "z", ⟨5, 0⟩⟩).essence.Inputs ≠ stickyB.essence.Inputs ∧
    (getOkBuilder
        (stickyB.AddInputsViaNodeQuery (.ed25519 "k") (failingQuery "net2") none)).occurredBuildErr
      = some (.external "net2") ∧
    Build (getOkBuilder
        (stickyB.AddInputsViaNodeQuery (.ed25519 "k") (failingQuery "net2") none))
        (some ⟨0⟩) (some okSigner) okMs okSz
      = (.error (.external "net2"), ⟨0, 0, 0⟩) := by decide

/-- Claim C3 amended: accumulation operations never consult the sticky
error slot — `AddInput`, `AddOutput` and `AddIndexationPayload` mutate the
essence exactly as without an error and leave the error unchanged; a later
failed node query overwrites the sticky error; and `Build` returns the
currently (i.e. most recently) recorded error without calling any external
capability. -/
theorem C3_amended_sticky_error (b : TransactionBuilder) (e : BuilderErr)
    (t : ToBeSignedUTXOInput) (o : Output) (p : Indexation)
    (h : b.occurredBuildErr = some e) :
    ((b.AddInput t).essence.Inputs = b.essence.Inputs ++ [t.Input] ∧
      (b.AddInput t).occurredBuildErr = some e) ∧
    ((b.AddOutput o).essence.Outputs = b.essence.Outputs ++ [o] ∧
      (b.AddOutput o).occurredBuildErr = some e) ∧
    ((b.AddIndexationPayload p).essence.Payload = some p ∧
      (b.AddIndexationPayload p).occurredBuildErr = some e) ∧
    (∀ key q f e', q key = .error e' →
      b.AddInputsViaNodeQuery (.ed25519 key) q f =
        .ok { occurredBuildErr := some e', essence := b.essence,
              inputToAddr := b.inputToAddr }) ∧
    (∀ ds s ms sz, Build b ds s ms sz = (.error e, ⟨0, 0, 0⟩)) := by
  refine ⟨⟨by simp [TransactionBuilder.AddInput], by simp [TransactionBuilder.AddInput, h]⟩,
    ⟨by simp [TransactionBuilder.AddOutput], by simp [TransactionBuilder.AddOutput, h]⟩,
    ⟨by simp [TransactionBuilder.AddIndexationPayload],
      by simp [TransactionBuilder.AddIndexationPayload, h]⟩,
    ?_, ?_⟩
  · intro key q f e' hq
    simp [TransactionBuilder.AddInputsViaNodeQuery, hq]
  · intro ds s ms sz
    simp [Build, h]

/-- Witness for the amended C3 at the concrete sticky builder. -/
theorem C3_amended_sticky_error_witness :
    (stickyB.AddInput ⟨.ed25519 "z", ⟨5, 0⟩⟩).essence.Inputs
        = stickyB.essence.Inputs ++ [⟨5, 0⟩] ∧
    Build stickyB none none okMs okSz = (.error (.external "net1"), ⟨0, 0, 0⟩) :=
  ⟨((C3_amended_sticky_error stickyB (.external "net1") ⟨.ed25519 "z", ⟨5, 0⟩⟩ ⟨3⟩ ⟨"idx"⟩
      (by decide)).1).1,
   (C3_amended_sticky_error stickyB (.external "net1") ⟨.ed25519 "z", ⟨5, 0⟩⟩ ⟨3⟩ ⟨"idx"⟩
      (by decide)).2.2.2.2 none none okMs okSz⟩

/-- Claim C6: if the unlock-block assembly fails (which, when every input
has a recorded address, happens exactly through a signer failure), `Build`
returns that error, produces no transaction, and never calls the
serializer. -/
theorem C6_signer_failure_aborts (b : TransactionBuilder)
    (paras : DeSerializationParameters) (signerFn : AddressSigner)
    (ms : TransactionEssence → Except BuilderErr (List Nat))
    (sz : Transaction → DeSerializationParameters → Except BuilderErr Unit)
    (msg : List Nat) (e : BuilderErr) (n : Nat)
    (h0 : b.occurredBuildErr = none)
    (h1 : ms b.essence = .ok msg)
    (h2 : buildLoop signerFn msg b.inputToAddr b.essence.Inputs 0 [] [] = (.error e, n)) :
    Build b (some paras) (some signerFn) ms sz = (.error e, ⟨1, n, 0⟩) ∧
    ((∀ inp ∈ b.essence.Inputs, (mapLookup b.inputToAddr inp.ID).isSome = true) →
      ∃ a, signerFn a msg = .error e) := by
  constructor
  · simp [Build, h0, h1, h2]
  · intro hmem
    exact buildLoop_error_from_signer signerFn msg b.inputToAddr _ 0 [] [] e n hmem h2

/-- Witness for C6: a failing signer on a one-input builder. -/
theorem C6_signer_failure_aborts_witness :
    Build (buildFromInputs [⟨.ed25519 "x", ⟨0, 0⟩⟩]) (some ⟨0⟩) (some failSigner) okMs okSz
        = (.error (.external "keyfail"), ⟨1, 1, 0⟩) ∧
    (∃ a, failSigner a [] = .error (.external "keyfail")) :=
  ⟨(C6_signer_failure_aborts (buildFromInputs [⟨.ed25519 "x", ⟨0, 0⟩⟩]) ⟨0⟩ failSigner
      okMs okSz [] (.external "keyfail") 1 (by decide) rfl (by decide)).1,
   (C6_signer_failure_aborts (buildFromInputs [⟨.ed25519 "x", ⟨0, 0⟩⟩]) ⟨0⟩ failSigner
      okMs okSz [] (.external "keyfail") 1 (by decide) rfl (by decide)).2
    (by decide)⟩

theorem applyOps_append_spec :
    ∀ (ops : List BuilderOp) (b : TransactionBuilder),
      (applyOps b ops).essence.Inputs = b.essence.Inputs ++ opsInputs ops ∧
      (applyOps b ops).essence.Outputs = b.essence.Outputs ++ opsOutputs ops := by
  intro ops
  induction ops with
  | nil => intro b; simp [applyOps, opsInputs, opsOutputs]
  | cons op rest ih =>
    intro b
    obtain ⟨ih1, ih2⟩ := ih (applyOp b op)
    have hOps : applyOps b (op :: rest) = applyOps (applyOp b op) rest := rfl
    cases op with
    | addInput t =>
      refine ⟨?_, ?_⟩
      · rw [hOps, ih1]
        simp [applyOp, TransactionBuilder.AddInput, opsInputs, List.filterMap_cons]
      · rw [hOps, ih2]
        simp [applyOp, TransactionBuilder.AddInput, opsOutputs, List.filterMap_cons]
    | addOutput o =>
      refine ⟨?_, ?_⟩
      · rw [hOps, ih1]
        simp [applyOp, TransactionBuilder.AddOutput, opsInputs, List.filterMap_cons]
      · rw [hOps, ih2]
        simp [applyOp, TransactionBuilder.AddOutput, opsOutputs, List.filterMap_cons]
    | addIndexationPayload p =>
      refine ⟨?_, ?_⟩
      · rw [hOps, ih1]
        simp [applyOp, TransactionBuilder.AddIndexationPayload, opsInputs, List.filterMap_cons]
      · rw [hOps, ih2]
        simp [applyOp, TransactionBuilder.AddIndexationPayload, opsOutputs, List.filterMap_cons]

/-- Claim C8: for every sequence of accumulation calls, the essence holds
exactly the added inputs and outputs in insertion order, and a successful
`Build` carries the accumulated essence unchanged into the transaction. -/
theorem C8_insertion_order (ops : List BuilderOp) :
    (applyOps NewTransactionBuilder ops).essence.Inputs = opsInputs ops ∧
    (applyOps NewTransactionBuilder ops).essence.Outputs = opsOutputs ops ∧
    ∀ ds s ms sz tx c,
      Build (applyOps NewTransactionBuilder ops) ds s ms sz = (.ok tx, c) →
      tx.Essence = (applyOps NewTransactionBuilder ops).essence := by
  obtain ⟨h1, h2⟩ := applyOps_append_spec ops NewTransactionBuilder
  refine ⟨by simpa [NewTransactionBuilder] using h1, by simpa [NewTransactionBuilder] using h2, ?_⟩
  intro ds s ms sz tx c h
  exact (Build_ok_shape _ ds s ms sz tx c h).1

/-- Witness for C8 on a concrete accumulation sequence. -/
theorem C8_insertion_order_witness :
    (applyOps NewTransactionBuilder
        [.addInput ⟨.ed25519 "x", ⟨0, 0⟩⟩, .addOutput ⟨5⟩]).essence.Inputs
      = opsInputs [.addInput ⟨.ed25519 "x", ⟨0, 0⟩⟩, .addOutput ⟨5⟩] ∧
    (Transaction.mk ⟨[⟨0, 0⟩], [⟨5⟩], none⟩ [.SignatureUnlockBlock 7]).Essence
      = (applyOps NewTransactionBuilder
          [.addInput ⟨.ed25519 "x", ⟨0, 0⟩⟩, .addOutput ⟨5⟩]).essence :=
  ⟨(C8_insertion_order [.addInput ⟨.ed25519 "x", ⟨0, 0⟩⟩, .addOutput ⟨5⟩]).1,
   (C8_insertion_order [.addInput ⟨.ed25519 "x", ⟨0, 0⟩⟩, .addOutput ⟨5⟩]).2.2
    (some ⟨0⟩) (some okSigner) okMs okSz _ ⟨1, 1, 1⟩ (by decide)⟩

/-- Claim C10: the input-to-address association is keyed by OutputID, so a
later `AddInput` with the same OutputID silently overwrites the owning
address, and at `Build` time every occurrence of that input — including
the earlier position — is unlocked under the later call's address. -/
theorem C10_outputID_keyed_overwrite (b : TransactionBuilder)
    (t1 t2 : ToBeSignedUTXOInput) (h : t1.Input.ID = t2.Input.ID) :
    mapLookup ((b.AddInput t1).AddInput t2).inputToAddr t1.Input.ID = some t2.Address ∧
    (∀ (paras : DeSerializationParameters) (signerFn : AddressSigner) ms sz
        (msg : List Nat) (sig : Signature),
      ms ((NewTransactionBuilder.AddInput t1).AddInput t2).essence = .ok msg →
      signerFn t2.Address msg = .ok sig →
      sz ⟨((NewTransactionBuilder.AddInput t1).AddInput t2).essence,
          [.SignatureUnlockBlock sig, .ReferenceUnlockBlock 0]⟩ paras = .ok () →
      Build ((NewTransactionBuilder.AddInput t1).AddInput t2) (some paras) (some signerFn) ms sz
        = (.ok ⟨((NewTransactionBuilder.AddInput t1).AddInput t2).essence,
            [.SignatureUnlockBlock sig, .ReferenceUnlockBlock 0]⟩, ⟨1, 1, 1⟩)) := by
  constructor
  · simp [TransactionBuilder.AddInput, mapLookup, h]
  · intro paras signerFn ms sz msg sig hms hsig hsz
    simp [TransactionBuilder.AddInput, NewTransactionBuilder] at hms hsz
    simp [Build, buildLoop, mapLookup, strLookup, TransactionBuilder.AddInput,
      NewTransactionBuilder, h, hms, hsig, hsz]

/-- Witness for C10: two different addresses supplied for one OutputID. -/
theorem C10_outputID_keyed_overwrite_witness :
    mapLookup
        ((NewTransactionBuilder.AddInput ⟨.ed25519 "x", ⟨0, 0⟩⟩).AddInput
          ⟨.ed25519 "y", ⟨0, 0⟩⟩).inputToAddr (UTXOInput.ID ⟨0, 0⟩) = some (.ed25519 "y") ∧
    Build ((NewTransactionBuilder.AddInput ⟨.ed25519 "x", ⟨0, 0⟩⟩).AddInput
          ⟨.ed25519 "y", ⟨0, 0⟩⟩) (some ⟨0⟩) (some okSigner) okMs okSz
      = (.ok ⟨((NewTransactionBuilder.AddInput ⟨.ed25519 "x", ⟨0, 0⟩⟩).AddInput
            ⟨.ed25519 "y", ⟨0, 0⟩⟩).essence,
          [.SignatureUnlockBlock 7, .ReferenceUnlockBlock 0]⟩, ⟨1, 1, 1⟩) :=
  ⟨(C10_outputID_keyed_overwrite NewTransactionBuilder ⟨.ed25519 "x", ⟨0, 0⟩⟩
      ⟨.ed25519 "y", ⟨0, 0⟩⟩ rfl).1,
   (C10_outputID_keyed_overwrite NewTransactionBuilder ⟨.ed25519 "x", ⟨0, 0⟩⟩
      ⟨.ed25519 "y", ⟨0, 0⟩⟩ rfl).2 ⟨0⟩ okSigner okMs okSz [] 7 rfl rfl rfl⟩

theorem sAt_zero (m : AddrMap) (inp : UTXOInput) (rest : List UTXOInput) :
    sAt m (inp :: rest) 0 = inpStr m inp := rfl

theorem sAt_succ (m : AddrMap) (inp : UTXOInput) (rest : List UTXOInput) (j : Nat) :
    sAt m (inp :: rest) (j + 1) = sAt m rest j := rfl

theorem firstIdxAux_eq_of_min (m : AddrMap) (s : String) :
    ∀ (ins : List UTXOInput) (p : Nat), p < ins.length → sAt m ins p = s →
      (∀ q, q < p → sAt m ins q ≠ s) → firstIdxAux m s ins = p := by
  intro ins
  induction ins with
  | nil => intro p hp _ _; simp at hp
  | cons inp rest ih =>
    intro p hp hs hmin
    cases p with
    | zero =>
      rw [sAt_zero] at hs
      simp [firstIdxAux, hs]
    | succ p =>
      have h0 : inpStr m inp ≠ s := by
        have := hmin 0 (Nat.succ_pos p)
        rwa [sAt_zero] at this
      rw [firstIdxAux, if_neg h0]
      have := ih p (by simpa using hp) (by rwa [sAt_succ] at hs)
        (fun q hq => by
          have := hmin (q + 1) (by omega)
          rwa [sAt_succ] at this)
      omega

theorem firstIdxAux_le (m : AddrMap) (s : String) :
    ∀ (ins : List UTXOInput) (j : Nat), j < ins.length → sAt m ins j = s →
      firstIdxAux m s ins ≤ j ∧ sAt m ins (firstIdxAux m s ins) = s := by
  intro ins
  induction ins with
  | nil => intro j hj _; simp at hj
  | cons inp rest ih =>
    intro j hj hs
    by_cases h0 : inpStr m inp = s
    · rw [firstIdxAux, if_pos h0]
      exact ⟨Nat.zero_le j, by rwa [sAt_zero]⟩
    · rw [firstIdxAux, if_neg h0]
      cases j with
      | zero =>
        rw [sAt_zero] at hs
        exact absurd hs h0
      | succ j =>
        obtain ⟨ih1, ih2⟩ := ih j (by simpa using hj) (by rwa [sAt_succ] at hs)
        exact ⟨by omega, by rwa [sAt_succ]⟩

theorem getD_append_middle (pre : List UTXOInput) (x : UTXOInput) (l2 : List UTXOInput) :
    (pre ++ x :: l2).getD pre.length ⟨0, 0⟩ = x := by
  rw [List.getD_eq_getElem?_getD, List.getElem?_append_right (Nat.le_refl _)]
  simp

theorem buildLoop_ok_spec (signer : AddressSigner) (msg : List Nat) (m : AddrMap)
    (full : List UTXOInput) :
    ∀ (rest pre : List UTXOInput) (sp : List (String × Nat))
      (blocks final : List UnlockBlock) (n : Nat),
      full = pre ++ rest →
      blocks.length = pre.length →
      (∀ j, j < pre.length → C1BlockSpec m full blocks j) →
      (∀ s p, strLookup sp s = some p →
        p < pre.length ∧ sAt m full p = s ∧ ∀ q, q < p → sAt m full q ≠ s) →
      (∀ s, strLookup sp s = none → ∀ q, q < pre.length → sAt m full q ≠ s) →
      buildLoop signer msg m rest pre.length sp blocks = (.ok final, n) →
      final.length = full.length ∧ ∀ j, j < full.length → C1BlockSpec m full final j := by
  intro rest
  induction rest with
  | nil =>
    intro pre sp blocks final n hfull hlen hblocks _ _ hrun
    rw [List.append_nil] at hfull
    subst hfull
    simp only [buildLoop, Prod.mk.injEq] at hrun
    obtain ⟨h1, _⟩ := hrun
    cases h1
    exact ⟨hlen, hblocks⟩
  | cons input rest ih =>
    intro pre sp blocks final n hfull hlen hblocks hsome hnone hrun
    rw [buildLoop] at hrun
    cases hlk : mapLookup m input.ID with
    | none => simp only [hlk] at hrun; simp at hrun
    | some addr =>
      simp only [hlk] at hrun
      have hfullAt : sAt m full pre.length = addrString addr := by
        rw [hfull, sAt, getD_append_middle]
        simp [inpStr, hlk]
      have hlenFull : pre.length < full.length := by
        rw [hfull]; simp
      cases hsl : strLookup sp (addrString addr) with
      | some pos =>
        simp only [hsl] at hrun
        obtain ⟨hp1, hp2, hp3⟩ := hsome (addrString addr) pos hsl
        have hfi : firstIdx m full pre.length = pos := by
          rw [firstIdx, hfullAt]
          exact firstIdxAux_eq_of_min m _ full pos (by omega) hp2 hp3
        refine ih (pre ++ [input]) sp (blocks ++ [.ReferenceUnlockBlock (pos % 65536)])
          final n (by rw [hfull]; simp) (by simp [hlen]) ?_ ?_ ?_ (by simpa using hrun)
        · intro j hj
          simp only [List.length_append, List.length_cons, List.length_nil] at hj
          rcases Nat.lt_succ_iff_lt_or_eq.mp hj with hj' | hj'
          · have hold := hblocks j hj'
            have hget : (blocks ++ [UnlockBlock.ReferenceUnlockBlock (pos % 65536)])[j]?
                = blocks[j]? := List.getElem?_append_left (by omega)
            simp only [C1BlockSpec, hget] at hold ⊢
            exact hold
          · subst hj'
            have hgetj : (blocks ++ [UnlockBlock.ReferenceUnlockBlock (pos % 65536)])[pre.length]?
                = some (.ReferenceUnlockBlock (pos % 65536)) := by
              rw [← hlen]
              exact List.getElem?_concat_length ..
            refine ⟨fun hcontra => ?_, fun _ => by rw [hfi, hgetj]⟩
            rw [hfi] at hcontra
            omega
        · intro s p hsp
          obtain ⟨a1, a2, a3⟩ := hsome s p hsp
          exact ⟨by simp; omega, a2, a3⟩
        · intro s hs q hq
          simp only [List.length_append, List.length_cons, List.length_nil] at hq
          rcases Nat.lt_succ_iff_lt_or_eq.mp hq with hq' | hq'
          · exact hnone s hs q hq'
          · subst hq'
            rw [hfullAt]
            intro heq
            rw [← heq] at hs
            rw [hs] at hsl
            cases hsl
      | none =>
        simp only [hsl] at hrun
        cases hsg : signer addr msg with
        | error e => simp only [hsg] at hrun; simp at hrun
        | ok sig =>
          simp only [hsg] at hrun
          rcases hrec : buildLoop signer msg m rest (pre.length + 1)
            ((addrString addr, pre.length) :: sp)
            (blocks ++ [.SignatureUnlockBlock sig]) with ⟨res, k⟩
          rw [hrec] at hrun
          simp only [Prod.mk.injEq] at hrun
          obtain ⟨h1, _⟩ := hrun
          cases h1
          have hmin : ∀ q, q < pre.length → sAt m full q ≠ addrString addr :=
            hnone _ hsl
          have hfi : firstIdx m full pre.length = pre.length := by
            rw [firstIdx, hfullAt]
            exact firstIdxAux_eq_of_min m _ full pre.length hlenFull hfullAt hmin
          refine ih (pre ++ [input]) ((addrString addr, pre.length) :: sp)
            (blocks ++ [.SignatureUnlockBlock sig]) final k
            (by rw [hfull]; simp) (by simp [hlen]) ?_ ?_ ?_ (by simpa using hrec)
          · intro j hj
            simp only [List.length_append, List.length_cons, List.length_nil] at hj
            rcases Nat.lt_succ_iff_lt_or_eq.mp hj with hj' | hj'
            · have hold := hblocks j hj'
              have hget : (blocks ++ [UnlockBlock.SignatureUnlockBlock sig])[j]?
                  = blocks[j]? := List.getElem?_append_left (by omega)
              simp only [C1BlockSpec, hget] at hold ⊢
              exact hold
            · subst hj'
              have hgetj : (blocks ++ [UnlockBlock.SignatureUnlockBlock sig])[pre.length]?
                  = some (.SignatureUnlockBlock sig) := by
                rw [← hlen]
                exact List.getElem?_concat_length ..
              exact ⟨fun _ => ⟨sig, hgetj⟩, fun hcontra => absurd hfi hcontra⟩
          · intro s p hsp
            rw [strLookup] at hsp
            by_cases hcase : addrString addr = s
            · rw [if_pos hcase] at hsp
              obtain rfl : pre.length = p := by
                injection hsp
              refine ⟨by simp, ?_, ?_⟩
              · rw [← hcase]; exact hfullAt
              · rw [← hcase]; exact hmin
            · rw [if_neg hcase] at hsp
              obtain ⟨a1, a2, a3⟩ := hsome s p hsp
              exact ⟨by simp; omega, a2, a3⟩
          · intro s hs q hq
            rw [strLookup] at hs
            by_cases hcase : addrString addr = s
            · rw [if_pos hcase] at hs
              cases hs
            · rw [if_neg hcase] at hs
              simp only [List.length_append, List.length_cons, List.length_nil] at hq
              rcases Nat.lt_succ_iff_lt_or_eq.mp hq with hq' | hq'
              · exact hnone s hs q hq'
              · subst hq'
                rw [hfullAt]
                exact hcase

/-- Claim C1 amended: for every input sequence accumulated via `AddInput`,
a successful `Build` carries one unlock block per input; exactly the first
positions of each owning-address identity carry `SignatureUnlockBlock`s,
and every other position carries a `ReferenceUnlockBlock` whose reference
is the smallest index among the inputs sharing its owning-address identity
reduced modulo 2^16 (the reference field is a `uint16`); whenever there
are at most 2^16 inputs this reduction is the identity and every
reference points at a `SignatureUnlockBlock`, never at another reference
block. -/
theorem C1_amended_unlock_structure (tbs : List ToBeSignedUTXOInput)
    (paras : DeSerializationParameters) (signer : AddressSigner)
    (ms : TransactionEssence → Except BuilderErr (List Nat))
    (sz : Transaction → DeSerializationParameters → Except BuilderErr Unit)
    (tx : Transaction) (c : BuildCalls)
    (h : Build (buildFromInputs tbs) (some paras) (some signer) ms sz = (.ok tx, c)) :
    tx.UnlockBlocks.length = (buildFromInputs tbs).essence.Inputs.length ∧
    (∀ j, j < (buildFromInputs tbs).essence.Inputs.length →
      C1BlockSpec (buildFromInputs tbs).inputToAddr
        (buildFromInputs tbs).essence.Inputs tx.UnlockBlocks j) ∧
    ((buildFromInputs tbs).essence.Inputs.length ≤ 65536 →
      ∀ j, j < (buildFromInputs tbs).essence.Inputs.length →
        firstIdx (buildFromInputs tbs).inputToAddr
            (buildFromInputs tbs).essence.Inputs j ≠ j →
        ∃ s, tx.UnlockBlocks[firstIdx (buildFromInputs tbs).inputToAddr
              (buildFromInputs tbs).essence.Inputs j % 65536]?
            = some (.SignatureUnlockBlock s)) := by
  obtain ⟨-, -, signerFn, msg, n, -, -, hLoop⟩ :=
    Build_ok_shape _ _ _ ms sz tx c h
  obtain ⟨hlen, hspec⟩ := buildLoop_ok_spec _ msg (buildFromInputs tbs).inputToAddr
    (buildFromInputs tbs).essence.Inputs (buildFromInputs tbs).essence.Inputs
    [] [] [] tx.UnlockBlocks n
    (by simp) rfl (by intro j hj; simp at hj)
    (by intro s p hsp; simp [strLookup] at hsp)
    (by intro s _ q hq; simp at hq)
    hLoop
  refine ⟨by simpa using hlen, hspec, ?_⟩
  intro h65536 j hj hne
  obtain ⟨hle, hsame⟩ := firstIdxAux_le (buildFromInputs tbs).inputToAddr
    (sAt (buildFromInputs tbs).inputToAddr (buildFromInputs tbs).essence.Inputs j)
    (buildFromInputs tbs).essence.Inputs j hj rfl
  have hle' : firstIdx (buildFromInputs tbs).inputToAddr
      (buildFromInputs tbs).essence.Inputs j ≤ j := hle
  have hfir : firstIdx (buildFromInputs tbs).inputToAddr
      (buildFromInputs tbs).essence.Inputs
        (firstIdx (buildFromInputs tbs).inputToAddr
          (buildFromInputs tbs).essence.Inputs j)
      = firstIdx (buildFromInputs tbs).inputToAddr
          (buildFromInputs tbs).essence.Inputs j := by
    simp only [firstIdx]
    rw [hsame]
  have hrlen : firstIdx (buildFromInputs tbs).inputToAddr
      (buildFromInputs tbs).essence.Inputs j
      < (buildFromInputs tbs).essence.Inputs.length := by
    omega
  have hmod : firstIdx (buildFromInputs tbs).inputToAddr
      (buildFromInputs tbs).essence.Inputs j % 65536
      = firstIdx (buildFromInputs tbs).inputToAddr
          (buildFromInputs tbs).essence.Inputs j :=
    Nat.mod_eq_of_lt (by omega)
  rw [hmod]
  exact (hspec _ hrlen).1 hfir

/-- Witness for the amended C1 on the concrete three-input build. -/
theorem C1_amended_unlock_structure_witness :
    c1wTx.UnlockBlocks.length = (buildFromInputs c1wTbs).essence.Inputs.length ∧
    (∀ j, j < (buildFromInputs c1wTbs).essence.Inputs.length →
      C1BlockSpec (buildFromInputs c1wTbs).inputToAddr
        (buildFromInputs c1wTbs).essence.Inputs c1wTx.UnlockBlocks j) ∧
    ((buildFromInputs c1wTbs).essence.Inputs.length ≤ 65536 →
      ∀ j, j < (buildFromInputs c1wTbs).essence.Inputs.length →
        firstIdx (buildFromInputs c1wTbs).inputToAddr
            (buildFromInputs c1wTbs).essence.Inputs j ≠ j →
        ∃ s, c1wTx.UnlockBlocks[firstIdx (buildFromInputs c1wTbs).inputToAddr
              (buildFromInputs c1wTbs).essence.Inputs j % 65536]?
            = some (.SignatureUnlockBlock s)) :=
  C1_amended_unlock_structure c1wTbs ⟨0⟩ okSigner okMs okSz c1wTx ⟨1, 2, 1⟩ (by decide)

theorem buildFromInputs_err (tbs : List ToBeSignedUTXOInput) :
    (buildFromInputs tbs).occurredBuildErr = none :=
  (foldl_AddInput_spec tbs NewTransactionBuilder).1

theorem buildFromInputs_inputs (tbs : List ToBeSignedUTXOInput) :
    (buildFromInputs tbs).essence.Inputs = tbs.map (fun t => t.Input) :=
  ((foldl_AddInput_spec tbs NewTransactionBuilder).2.1).trans (List.nil_append _)

theorem buildFromInputs_map (tbs : List ToBeSignedUTXOInput) :
    (buildFromInputs tbs).inputToAddr
      = (tbs.map (fun t => (t.Input.ID, t.Address))).reverse :=
  ((foldl_AddInput_spec tbs NewTransactionBuilder).2.2.2.2).trans (List.append_nil _)

theorem cexB_err : cexB.occurredBuildErr = none := buildFromInputs_err cexTbs

theorem cexTbs_eq :
    cexTbs = List.replicate 65536 (⟨cexX, cexInpX⟩ : ToBeSignedUTXOInput)
      ++ [⟨cexA, cexInpA⟩, ⟨cexA, cexInpA⟩] := rfl

theorem cexB_inputs :
    cexB.essence.Inputs = List.replicate 65536 cexInpX ++ [cexInpA, cexInpA] := by
  have hb : cexB = buildFromInputs cexTbs := rfl
  rw [hb, buildFromInputs_inputs, cexTbs_eq, List.map_append, List.map_replicate]
  rfl

theorem cexB_map :
    cexB.inputToAddr
      = (cexInpA.ID, cexA) :: (cexInpA.ID, cexA) ::
          List.replicate 65536 (cexInpX.ID, cexX) := by
  have hb : cexB = buildFromInputs cexTbs := rfl
  rw [hb, buildFromInputs_map, cexTbs_eq, List.map_append, List.map_replicate,
    List.reverse_append, List.reverse_replicate]
  rfl

theorem mapLookup_replicate (k : OutputID) (v : Address) (n : Nat) (hn : 0 < n) :
    mapLookup (List.replicate n (k, v)) k = some v := by
  cases n with
  | zero => omega
  | succ n => rw [List.replicate_succ, mapLookup, if_pos rfl]

theorem cexB_lookupA : mapLookup cexB.inputToAddr cexInpA.ID = some cexA := by
  rw [cexB_map, mapLookup, if_pos rfl]

theorem cexB_lookupX : mapLookup cexB.inputToAddr cexInpX.ID = some cexX := by
  rw [cexB_map, mapLookup, if_neg (by decide), mapLookup, if_neg (by decide)]
  exact mapLookup_replicate _ _ 65536 (by norm_num)

theorem buildLoop_nil (signer : AddressSigner) (msg : List Nat) (m : AddrMap)
    (i : Nat) (sp : List (String × Nat)) (blocks : List UnlockBlock) :
    buildLoop signer msg m [] i sp blocks = (.ok blocks, 0) := rfl

theorem buildLoop_cons_ref (signer : AddressSigner) (msg : List Nat) (m : AddrMap)
    (inp : UTXOInput) (rest : List UTXOInput) (i : Nat) (sp : List (String × Nat))
    (blocks : List UnlockBlock) (a : Address) (pos : Nat)
    (hlk : mapLookup m inp.ID = some a)
    (hsl : strLookup sp (addrString a) = some pos) :
    buildLoop signer msg m (inp :: rest) i sp blocks
      = buildLoop signer msg m rest (i + 1) sp
          (blocks ++ [UnlockBlock.ReferenceUnlockBlock (pos % 65536)]) := by
  rw [buildLoop]
  simp only [hlk, hsl]

theorem buildLoop_cons_sig (signer : AddressSigner) (msg : List Nat) (m : AddrMap)
    (inp : UTXOInput) (rest : List UTXOInput) (i : Nat) (sp : List (String × Nat))
    (blocks : List UnlockBlock) (a : Address) (sig : Signature)
    (hlk : mapLookup m inp.ID = some a)
    (hsl : strLookup sp (addrString a) = none)
    (hsg : signer a msg = .ok sig) :
    buildLoop signer msg m (inp :: rest) i sp blocks
      = ((buildLoop signer msg m rest (i + 1) ((addrString a, i) :: sp)
            (blocks ++ [UnlockBlock.SignatureUnlockBlock sig])).1,
         (buildLoop signer msg m rest (i + 1) ((addrString a, i) :: sp)
            (blocks ++ [UnlockBlock.SignatureUnlockBlock sig])).2 + 1) := by
  rw [buildLoop]
  simp only [hlk, hsl, hsg]

theorem buildLoop_replicate_refs (signer : AddressSigner) (msg : List Nat) (m : AddrMap)
    (inp : UTXOInput) (a : Address) (pos : Nat) (sp : List (String × Nat))
    (hlk : mapLookup m inp.ID = some a)
    (hsl : strLookup sp (addrString a) = some pos) :
    ∀ (n : Nat) (tail : List UTXOInput) (i : Nat) (blocks : List UnlockBlock),
      buildLoop signer msg m (List.replicate n inp ++ tail) i sp blocks
        = buildLoop signer msg m tail (i + n) sp
            (blocks ++ List.replicate n (.ReferenceUnlockBlock (pos % 65536))) := by
  intro n
  induction n with
  | zero => intro tail i blocks; simp
  | succ n ihn =>
    intro tail i blocks
    rw [List.replicate_succ, List.cons_append,
      buildLoop_cons_ref signer msg m inp (List.replicate n inp ++ tail) i sp blocks
        a pos hlk hsl,
      ihn tail (i + 1) (blocks ++ [UnlockBlock.ReferenceUnlockBlock (pos % 65536)])]
    have h1 : i + 1 + n = i + (n + 1) := by omega
    have h2 : blocks ++ [UnlockBlock.ReferenceUnlockBlock (pos % 65536)]
        ++ List.replicate n (UnlockBlock.ReferenceUnlockBlock (pos % 65536))
        = blocks ++ List.replicate (n + 1) (UnlockBlock.ReferenceUnlockBlock (pos % 65536)) := by
      rw [List.append_assoc, List.replicate_succ, List.singleton_append]
    rw [h1, h2]

theorem firstIdxAux_replicate_skip (m : AddrMap) (s : String) (inp : UTXOInput)
    (hne : inpStr m inp ≠ s) :
    ∀ (n : Nat) (tail : List UTXOInput),
      firstIdxAux m s (List.replicate n inp ++ tail) = n + firstIdxAux m s tail := by
  intro n
  induction n with
  | zero => intro tail; simp
  | succ n ihn =>
    intro tail
    rw [List.replicate_succ, List.cons_append, firstIdxAux, if_neg hne, ihn]
    omega

theorem cexB_firstIdx :
    firstIdx cexB.inputToAddr cexB.essence.Inputs 65537 = 65536 := by
  have hposA : inpStr cexB.inputToAddr cexInpA = addrString cexA := by
    rw [inpStr, cexB_lookupA, Option.getD_some]
  have hne : inpStr cexB.inputToAddr cexInpX ≠ addrString cexA := by
    rw [inpStr, cexB_lookupX, Option.getD_some]
    decide
  have hsAt : sAt cexB.inputToAddr cexB.essence.Inputs 65537 = addrString cexA := by
    rw [cexB_inputs, sAt, List.getD_eq_getElem?_getD,
      List.getElem?_append_right (by rw [List.length_replicate]; norm_num),
      List.length_replicate]
    rw [show (65537 : Nat) - 65536 = 1 from by norm_num]
    exact hposA
  rw [firstIdx, hsAt, cexB_inputs,
    firstIdxAux_replicate_skip cexB.inputToAddr (addrString cexA) cexInpX hne 65536
      [cexInpA, cexInpA],
    firstIdxAux, if_pos hposA]

theorem cexB_loop :
    buildLoop okSigner [] cexB.inputToAddr cexB.essence.Inputs 0 [] []
      = (.ok cexBlocks, 2) := by
  have hsl0 : strLookup [(addrString cexX, 0)] (addrString cexX) = some 0 := by
    rw [strLookup, if_pos rfl]
  have hsl1 : strLookup [(addrString cexX, 0)] (addrString cexA) = none := by
    rw [strLookup, if_neg (by decide), strLookup]
  have hsl2 : strLookup ((addrString cexA, 65536) :: [(addrString cexX, 0)])
      (addrString cexA) = some 65536 := by
    rw [strLookup, if_pos rfl]
  have hrep : List.replicate 65536 cexInpX = cexInpX :: List.replicate 65535 cexInpX := by
    rw [show (65536 : Nat) = 65535 + 1 from by norm_num, List.replicate_succ]
  rw [cexB_inputs, hrep, List.cons_append,
    buildLoop_cons_sig okSigner [] cexB.inputToAddr cexInpX
      (List.replicate 65535 cexInpX ++ [cexInpA, cexInpA]) 0 [] [] cexX 7
      cexB_lookupX rfl rfl,
    List.nil_append,
    buildLoop_replicate_refs okSigner [] cexB.inputToAddr cexInpX cexX 0
      [(addrString cexX, 0)] cexB_lookupX hsl0 65535 [cexInpA, cexInpA] 1
      [UnlockBlock.SignatureUnlockBlock 7],
    show (1 : Nat) + 65535 = 65536 from by norm_num,
    show (0 : Nat) % 65536 = 0 from by norm_num,
    buildLoop_cons_sig okSigner [] cexB.inputToAddr cexInpA [cexInpA] 65536
      [(addrString cexX, 0)]
      ([UnlockBlock.SignatureUnlockBlock 7]
        ++ List.replicate 65535 (UnlockBlock.ReferenceUnlockBlock 0)) cexA 7
      cexB_lookupA hsl1 rfl,
    buildLoop_cons_ref okSigner [] cexB.inputToAddr cexInpA [] (65536 + 1)
      ((addrString cexA, 65536) :: [(addrString cexX, 0)])
      (([UnlockBlock.SignatureUnlockBlock 7]
        ++ List.replicate 65535 (UnlockBlock.ReferenceUnlockBlock 0))
        ++ [UnlockBlock.SignatureUnlockBlock 7]) cexA 65536
      cexB_lookupA hsl2,
    show (65536 : Nat) % 65536 = 0 from by norm_num,
    buildLoop_nil]
  simp only [cexBlocks, List.append_assoc, List.singleton_append, List.cons_append,
    List.nil_append]

theorem Build_of_parts (b : TransactionBuilder) (paras : DeSerializationParameters)
    (signerFn : AddressSigner)
    (ms : TransactionEssence → Except BuilderErr (List Nat))
    (sz : Transaction → DeSerializationParameters → Except BuilderErr Unit)
    (msg : List Nat) (blocks : List UnlockBlock) (n : Nat)
    (h0 : b.occurredBuildErr = none)
    (h1 : ms b.essence = .ok msg)
    (h2 : buildLoop signerFn msg b.inputToAddr b.essence.Inputs 0 [] [] = (.ok blocks, n))
    (h3 : sz ⟨b.essence, blocks⟩ paras = .ok ()) :
    Build b (some paras) (some signerFn) ms sz
      = (.ok ⟨b.essence, blocks⟩, ⟨1, n, 1⟩) := by
  simp [Build, h0, h1, h2, h3]

theorem cexB_build :
    Build cexB (some ⟨0⟩) (some okSigner) okMs okSz
      = (.ok ⟨cexB.essence, cexBlocks⟩, ⟨1, 2, 1⟩) :=
  Build_of_parts cexB ⟨0⟩ okSigner okMs okSz [] cexBlocks 2 cexB_err rfl cexB_loop rfl

/-- Counterexample to claim C1 as stated: on 65538 accumulated inputs
(65536 owned by X, then two owned by A), the reference block at position
65537 carries `uint16(65536) = 0`, not the smallest index 65536 among the
inputs sharing A's identity. -/
theorem C1_counterexample : ¬ C1RefClaim cexB ⟨0⟩ okSigner okMs okSz := by
  intro hclaim
  have hlen : cexB.essence.Inputs.length = 65538 := by
    rw [cexB_inputs, List.length_append, List.length_replicate]
    norm_num
  have h := hclaim ⟨cexB.essence, cexBlocks⟩ ⟨1, 2, 1⟩ cexB_build 65537
    (by rw [hlen]; norm_num)
    (by rw [cexB_firstIdx]; norm_num)
  rw [cexB_firstIdx] at h
  have hat : cexBlocks[65537]? = some (.ReferenceUnlockBlock 0) := by
    rw [show cexBlocks = UnlockBlock.SignatureUnlockBlock 7 ::
        (List.replicate 65535 (UnlockBlock.ReferenceUnlockBlock 0) ++
          [UnlockBlock.SignatureUnlockBlock 7, UnlockBlock.ReferenceUnlockBlock 0])
      from rfl]
    rw [show (65537 : Nat) = 65536 + 1 from by norm_num, List.getElem?_cons_succ,
      List.getElem?_append_right (by rw [List.length_replicate]; norm_num),
      List.length_replicate]
    rfl
  rw [hat] at h
  exact absurd h (by decide)



end IotaGo
